import Mathlib

/-!
Verification of the spectral-cube tutorial notebooks (e-koch/tutorials).

The notebooks are thin drivers over spectral-cube / pvextractor / regions /
astropy.  Logic that lives in the notebooks themselves (the Dame far-3kpc-arm
velocity mask, the NaN zero-filling before the 2D Gaussian fit, the FTP
download fallback) is embedded directly from the notebook cells.  Components
whose implementation lives in the external libraries (path sampling, PV cell
averaging, moment maps, region masks, mask attachment) are modelled from the
specification's contracts; each such definition carries a doc comment saying
so.

NaN-able floating point data is embedded as `Option ℚ`: `none` stands for a
NaN (or masked-out) entry, `some q` for a finite value.
-/

/- ### Claim C1 — NaN handling before the 2D fit
(fitting_with_spectralcube.ipynb).  The notebook cell reads

  moment0_cutout_quant = moment0_cutout.quantity
  moment0_cutout_quant[np.isnan(moment0_cutout_quant)] = 0.
  p_gauss2D = fit_p(p_init_gauss2D, xx, yy, moment0_cutout_quant)

i.e. the observed values handed to the least-squares fitter have every NaN
replaced by 0 beforehand. -/

/-- The notebook's in-place zero substitution
`moment0_cutout_quant[np.isnan(moment0_cutout_quant)] = 0.`:
every NaN entry of the observed array becomes the finite value 0. -/
def setNanToZero (obs : List (Option ℚ)) : List ℚ :=
  obs.map (fun o => o.getD 0)

/-- The non-NaN entries of the observed array, in order (what the spec's
NaN-exclusion contract says the residual sum must range over). -/
def validObs (obs : List (Option ℚ)) : List ℚ :=
  obs.filterMap id

/-- Sum of squared residuals of a constant model `c` against the data:
the least-squares objective specialised to the simplest model family. -/
def rss (c : ℚ) (data : List ℚ) : ℚ :=
  (data.map (fun d => (d - c) ^ 2)).sum

/-- Exact least-squares fit of a constant model: the mean of the data
(the unique minimizer of `rss` when the data is nonempty). -/
def lsqConstFit (data : List ℚ) : ℚ :=
  data.sum / data.length

/-- A concrete observed array for the fit: one finite observation 4 and one
NaN observation. -/
def fit2dFailingInput : List (Option ℚ) := [some 4, none]

/- ### Claim C2 — velocity-range mask bounds (DameCube.ipynb).
The notebook cell reads

  def v_of_l(ell): return (56 + 4.0 * ell)*u.m/u.s
  far3kpcarm_mask = [(cube.spectral_axis > v_of_l(l)-13*u.m/u.s) &
                     (cube.spectral_axis < v_of_l(l)+13*u.m/u.s) ...]

Both comparisons are strict. -/

/-- The Dame & Thaddeus best-fit arm model from the notebook:
`v_of_l(ell) = (56 + 4.0 * ell) m/s`. -/
def v_of_l (ell : ℚ) : ℚ := 56 + 4 * ell

/-- One channel of the notebook's `far3kpcarm_mask` at longitude `ell`:
the channel's world velocity `v` is kept iff
`v_of_l ell - 13 < v` and `v < v_of_l ell + 13` (both comparisons strict,
exactly as the `>` / `<` in the cell). -/
def far3kpcarm_channel (v ell : ℚ) : Bool :=
  decide (v > v_of_l ell - 13) && decide (v < v_of_l ell + 13)

/- ### Claim C6 — MAPS cube download with FTP fallback
(DiskPVExample notebook).  The cell reads

  if not os.path.exists(filename):
      try:
          filename = download_file('ftp://ftp.cv.nrao.edu/NRAO-staff/...fits',
                                   cache=True, timeout=10)
      except:   (then, having imported ftplib:)
          ftp = ftplib.FTP('ftp.cv.nrao.edu')
          ftp.login()
          ftp.cwd('NRAO-staff/rloomis/MAPS/HD_163296/images/CO/0.15arcsec')
          with open('HD_163296_...fits', 'wb') as fp:
              ftp.retrbinary('RETR HD_163296_...fits', fp.write)
          ftp.quit()
-/

/-- The FITS file name used by both the primary URL and the FTP fallback. -/
def mapsFits : String := "HD_163296_CO_220GHz.0.15arcsec.JvMcorr.image.pbcor.fits"

/-- The FTP host of the MAPS data. -/
def mapsHost : String := "ftp.cv.nrao.edu"

/-- The directory holding the MAPS cube on the FTP server. -/
def mapsDir : String := "NRAO-staff/rloomis/MAPS/HD_163296/images/CO/0.15arcsec"

/-- The primary URL passed to `download_file` — the same resource the
fallback retrieves: same host, same directory, same file. -/
def mapsURL : String := "ftp://" ++ mapsHost ++ "/" ++ mapsDir ++ "/" ++ mapsFits

/-- One network attempt made by the download cell: either the cached
`download_file` call (with its `timeout` argument) or the raw `ftplib`
`RETR` of a file from a host/directory. -/
inductive Attempt where
  | primaryDL (url : String) (timeout : ℕ)
  | ftpRetr (host dir file : String)
  deriving DecidableEq

/-- Outcome of the download cell: a usable local path, or the failure the
spec's error taxonomy files under IOError (resource unreachable / fetch
exhausted the fallback). -/
inductive FetchResult where
  | ok (path : String)
  | ioError
  deriving DecidableEq

/-- The environment the download cell runs against: whether the target file
already exists locally, what `download_file` at a given timeout would return
(`none` = raises), and whether the raw FTP retrieval would succeed. -/
structure RemoteEnv where
  localExists : Bool
  primaryFetch : ℕ → Option String
  ftpFetch : Option Unit

/-- The download cell of the DiskPVExample notebook: skip everything when the
file exists locally; otherwise try `download_file(url, cache=True,
timeout=10)`; on any exception fall back to a single `ftplib` retrieval of
the same file, whose own failure ends the operation.  The second component
records the network attempts in order. -/
def acquireMapsCube (env : RemoteEnv) : FetchResult × List Attempt :=
  if env.localExists then (.ok mapsFits, [])
  else
    match env.primaryFetch 10 with
    | some cached => (.ok cached, [.primaryDL mapsURL 10])
    | none =>
        match env.ftpFetch with
        | some _ => (.ok mapsFits,
            [.primaryDL mapsURL 10, .ftpRetr mapsHost mapsDir mapsFits])
        | none => (.ioError,
            [.primaryDL mapsURL 10, .ftpRetr mapsHost mapsDir mapsFits])

/-- A concrete cache-miss environment in which both the primary download and
the FTP fallback fail. -/
def failEnv : RemoteEnv := ⟨false, fun _ => none, none⟩

/- ### Claim C3 / C10 — path sampling (pvextractor).
The pvextractor implementation is an external dependency; only its call
sites (`Path([(0,0),(481,481)], width=200)`, `extract_pv_slice(cube, path,
spacing=5)`, `extract_pv_slice(cube=cube, path=skypath)`) appear in the
notebooks. -/

/-- Modelled from the spec: pvextractor's along-path sampling (§4.4), whose
implementation is not in this repository.  Sample centers sit at uniform
arc-length offsets `0, spacing, 2·spacing, …` from the first waypoint along
the concatenated straight segments of the polyline, and never past the last
waypoint; `L` is the polyline's total arc length, the only datum of the
polyline the offsets depend on. -/
def sampleOffsets (L spacing : ℚ) : List ℚ :=
  (List.range (⌊L / spacing⌋.toNat + 1)).map (fun k : ℕ => (k : ℚ) * spacing)

/- ### Claim C4 — PV cell averaging (pvextractor internals, external). -/

/-- Modelled from the spec (§4.5): the single-pass NaN-aware accumulation the
extractor performs over a footprint — a running sum and count of the finite
(non-NaN, unmasked) values, skipping the excluded ones. -/
def nansumCount : List (Option ℚ) → ℚ × ℕ
  | [] => (0, 0)
  | none :: xs => nansumCount xs
  | some v :: xs => ((nansumCount xs).1 + v, (nansumCount xs).2 + 1)

/-- Modelled from the spec (§4.5): the unweighted mean of the valid values of
a footprint, `none` (a NaN cell) when every contributing value is excluded. -/
def nanmean (xs : List (Option ℚ)) : Option ℚ :=
  if (nansumCount xs).2 = 0 then none
  else some ((nansumCount xs).1 / (nansumCount xs).2)

/-- Modelled from the spec (§4.5): one cell of the PV diagram — the NaN-aware
mean of the cube's intensities over the footprint pixels `fp` of one sample,
at spectral channel `ch`.  The cube is `chan → y → x → Option ℚ` with `none`
for a masked-out or NaN pixel. -/
def pvCell (cube : ℕ → ℕ → ℕ → Option ℚ) (fp : List (ℕ × ℕ)) (ch : ℕ) :
    Option ℚ :=
  nanmean (fp.map (fun p => cube ch p.1 p.2))

/-- A concrete 2-channel test cube for the spec's PV NaN test: at channel 0,
pixel (0,0) holds 2, pixel (0,1) holds 4, and every other pixel is NaN. -/
def pvTestCube : ℕ → ℕ → ℕ → Option ℚ :=
  fun ch y x =>
    if ch = 0 ∧ y = 0 ∧ x = 0 then some 2
    else if ch = 0 ∧ y = 0 ∧ x = 1 then some 4
    else none

/-- The concrete three-pixel footprint used in the spec's PV NaN test. -/
def pvTestFootprint : List (ℕ × ℕ) := [(0, 0), (0, 1), (1, 0)]

/- ### Claim C5 — moment-0 map (spectral-cube internals, external). -/

/-- Modelled from the spec (§4.6 and §3): the face a masked spectral cube
shows to the moment reducer — spectral × spatial extents, per-voxel values
with `none` for a masked-out or NaN voxel, the world velocity of each
channel, and the (uniform) channel width. -/
structure MCube where
  nchan : ℕ
  ny : ℕ
  nx : ℕ
  val : ℕ → ℕ → ℕ → Option ℚ
  vel : ℕ → ℚ
  dv : ℚ

/-- Modelled from the spec (§4.6): the channels whose spectral coordinate
lies within `[vmin, vmax)` (inclusive-exclusive, per the contract). -/
def selectedChannels (c : MCube) (vmin vmax : ℚ) : List ℕ :=
  (List.range c.nchan).filter
    (fun i => decide (vmin ≤ c.vel i) && decide (c.vel i < vmax))

/-- Modelled from the spec (§4.6): moment 0 at one spatial pixel — the
NaN-excluded sum of the selected channels times the channel width, `none`
(NaN) when every selected channel is excluded at that pixel. -/
def moment0Pixel (c : MCube) (vmin vmax : ℚ) (y x : ℕ) : Option ℚ :=
  if (nansumCount ((selectedChannels c vmin vmax).map (fun i => c.val i y x))).2 = 0
  then none
  else some ((nansumCount ((selectedChannels c vmin vmax).map
    (fun i => c.val i y x))).1 * c.dv)

/-- Modelled from the spec (§4.6): the full moment-0 map, one row per
spatial y, one cell per spatial x. -/
def moment0Map (c : MCube) (vmin vmax : ℚ) : List (List (Option ℚ)) :=
  (List.range c.ny).map
    (fun y => (List.range c.nx).map (fun x => moment0Pixel c vmin vmax y x))

/-- A concrete cube for the zero-channel-selection test: 2 channels both at
world velocity 0, a 1×2 spatial plane of finite values. -/
def m0TestCube : MCube :=
  { nchan := 2, ny := 1, nx := 2,
    val := fun _ _ _ => some 1,
    vel := fun _ => 0,
    dv := 1 }

/- ### Claim C7 — idempotence of region application
(spectral-cube `subcube_from_regions`, external; the notebook calls
`cutout = cube.subcube_from_regions([ellipse])`). -/

/-- A half-open pixel-coordinate interval `[lo, hi)` on one spatial axis. -/
structure PixInterval where
  lo : ℤ
  hi : ℤ
  deriving DecidableEq

/-- Intersection of two pixel intervals. -/
def PixInterval.inter (a b : PixInterval) : PixInterval :=
  ⟨max a.lo b.lo, min a.hi b.hi⟩

/-- A spatial region as the subcube extractor consumes it: a bounding box
per axis plus a boolean membership predicate over world pixel coordinates. -/
structure PixRegion where
  xbox : PixInterval
  ybox : PixInterval
  contains : ℤ → ℤ → Bool

/-- Modelled from the spec (§4.3): the logical cube the subcube extractor
works on — spatial extents in a fixed world pixel frame (so a cutout keeps
the coordinates of its parent), data and mask addressed by
(channel, world-y, world-x). -/
structure LCube where
  nchan : ℕ
  xext : PixInterval
  yext : PixInterval
  data : ℕ → ℤ → ℤ → ℚ
  mask : ℕ → ℤ → ℤ → Bool

/-- Modelled from the spec (§4.3): `apply(cube, region)` — the returned
logical cube is trimmed to the bounding box of the region on each spatial
axis and its mask is the conjunction of the pre-existing mask with the
region's membership predicate; data and channel count are untouched. -/
def applyRegion (c : LCube) (r : PixRegion) : LCube :=
  { nchan := c.nchan,
    xext := c.xext.inter r.xbox,
    yext := c.yext.inter r.ybox,
    data := c.data,
    mask := fun k y x => c.mask k y x && r.contains y x }

/- ### Claim C8 — ellipse membership (regions package, external; the
notebook only constructs `EllipsePixelRegion(center, width=550, height=400,
angle=45*u.deg)`). -/

/-- Modelled from the spec (§4.2): pixel membership in an ellipse region
with center `(cx, cy)`, semi-axes `(a, b)` and rotation θ, where `cθ` and
`sθ` stand for cos θ and sin θ:
`((Δx·cosθ + Δy·sinθ)/a)² + ((−Δx·sinθ + Δy·cosθ)/b)² ≤ 1`. -/
def ellipseContains (cx cy a b cθ sθ x y : ℚ) : Bool :=
  decide ((((x - cx) * cθ + (y - cy) * sθ) / a) ^ 2 +
          ((-(x - cx) * sθ + (y - cy) * cθ) / b) ^ 2 ≤ 1)

/- ### Claim C9 — mask shape invariant (spectral-cube `with_mask`,
external; the notebooks call it with an equal-shaped threshold mask and
with a broadcastable `(nchan, 1, nx)` array). -/

/-- A dense 3D array: per-axis lengths and an entry function. -/
structure Arr3 (α : Type) where
  n1 : ℕ
  n2 : ℕ
  n3 : ℕ
  entry : ℕ → ℕ → ℕ → α

/-- The shape of a 3D array, axis by axis. -/
def Arr3.shape {α : Type} (a : Arr3 α) : ℕ × ℕ × ℕ := (a.n1, a.n2, a.n3)

/-- A cube as the masking layer sees it: a data array and its boolean mask
array. -/
structure SCube where
  data : Arr3 ℚ
  mask : Arr3 Bool

/-- Index mapping of numpy-style broadcasting on one axis: a length-1 axis
serves its single plane for every index. -/
def broadcastIdx (m : ℕ) (i : ℕ) : ℕ := if m = 1 then 0 else i

/-- Modelled from the spec (§3, §4.3) and the notebooks' `with_mask` calls:
attaching a mask accepts a boolean array whose length on each axis either
equals the data's or is a broadcastable 1 (DameCube passes a
`(nchan, 1, nx)` array), and rejects any other shape; the attached mask is
the broadcast of the new mask conjoined with the pre-existing mask,
materialized at the data's own shape. -/
def with_mask (c : SCube) (m : Arr3 Bool) : Option SCube :=
  if (m.n1 = c.data.n1 ∨ m.n1 = 1) ∧ (m.n2 = c.data.n2 ∨ m.n2 = 1) ∧
     (m.n3 = c.data.n3 ∨ m.n3 = 1) then
    some { data := c.data,
           mask := { n1 := c.data.n1, n2 := c.data.n2, n3 := c.data.n3,
                     entry := fun i j k =>
                       c.mask.entry i j k &&
                       m.entry (broadcastIdx m.n1 i) (broadcastIdx m.n2 j)
                         (broadcastIdx m.n3 k) } }
  else none

/-- A concrete 2×2×3 cube of ones, fully unmasked. -/
def wmCube : SCube :=
  { data := ⟨2, 2, 3, fun _ _ _ => 1⟩, mask := ⟨2, 2, 3, fun _ _ _ => true⟩ }

/-- A concrete broadcastable mask of shape (2, 1, 3), like DameCube's
`far3kpcarm_mask.T[:, None, :]`. -/
def wmNewMask : Arr3 Bool := ⟨2, 1, 3, fun _ _ k => decide (k ≠ 1)⟩

/-- The cube `with_mask wmCube wmNewMask` produces. -/
def wmResult : SCube :=
  { data := wmCube.data,
    mask := { n1 := 2, n2 := 2, n3 := 3,
              entry := fun i j k =>
                wmCube.mask.entry i j k &&
                wmNewMask.entry (broadcastIdx 2 i) (broadcastIdx 1 j)
                  (broadcastIdx 3 k) } }

/- ### Claim C10 — default sampling spacing of `extract_pv_slice`. -/

/-- Modelled from the spec (§4.4–4.5) and the notebook's prose ("The default
spacing is 1 pixel"): the face of a pvextractor `Path` the extractor
consumes — its total arc length in pixels and, for each along-path offset,
the footprint of pixels averaged into that sample's column. -/
structure PVPath where
  length : ℚ
  footprintAt : ℚ → List (ℕ × ℕ)

/-- Modelled from the spec (§4.5): `extract_pv_slice` with an explicit
`spacing` — one column per sample offset, one cell per spectral channel,
each cell the NaN-aware footprint mean. -/
def extract_pv_slice (cube : ℕ → ℕ → ℕ → Option ℚ) (nchan : ℕ) (p : PVPath)
    (spacing : ℚ) : List (List (Option ℚ)) :=
  (sampleOffsets p.length spacing).map
    (fun o => (List.range nchan).map (fun ch => pvCell cube (p.footprintAt o) ch))

/-- Modelled from the spec / notebook: `extract_pv_slice(cube=cube,
path=path)` called without an explicit spacing — the `spacing` parameter
defaults to 1 pixel. -/
def extract_pv_slice_default (cube : ℕ → ℕ → ℕ → Option ℚ) (nchan : ℕ)
    (p : PVPath) : List (List (Option ℚ)) :=
  extract_pv_slice cube nchan p 1

/- ### Theorems -/

/-- Claim C1 (code_bug): the notebook zero-fills NaNs instead of excluding
them from the residual sum.  At the observed array `[4, NaN]`, fitting a
constant model: the code path (zero substitution) minimizes the residual sum
over `[4, 0]` and returns 2, while the claimed NaN-excluding fit minimizes
over `[4]` alone and returns 4; the two fits differ, so the zero substitution
biases the fitted value.  Each returned value is verified to be the actual
minimizer of its residual sum. -/
theorem gauss2d_zero_fill_code_bug :
    setNanToZero fit2dFailingInput = [4, 0] ∧
    validObs fit2dFailingInput = [4] ∧
    lsqConstFit (setNanToZero fit2dFailingInput) = 2 ∧
    lsqConstFit (validObs fit2dFailingInput) = 4 ∧
    (∀ c : ℚ, rss (lsqConstFit (setNanToZero fit2dFailingInput))
        (setNanToZero fit2dFailingInput) ≤ rss c (setNanToZero fit2dFailingInput)) ∧
    (∀ c : ℚ, rss (lsqConstFit (validObs fit2dFailingInput))
        (validObs fit2dFailingInput) ≤ rss c (validObs fit2dFailingInput)) ∧
    lsqConstFit (setNanToZero fit2dFailingInput) ≠
      lsqConstFit (validObs fit2dFailingInput) := by
  have hz : setNanToZero fit2dFailingInput = [4, 0] := rfl
  have hv : validObs fit2dFailingInput = [4] := rfl
  have hfz : lsqConstFit (setNanToZero fit2dFailingInput) = 2 := by
    rw [hz]; simp [lsqConstFit]; norm_num
  have hfv : lsqConstFit (validObs fit2dFailingInput) = 4 := by
    rw [hv]; simp [lsqConstFit]
  refine ⟨hz, hv, hfz, hfv, ?_, ?_, ?_⟩
  · intro c
    rw [hz]
    rw [show lsqConstFit [(4 : ℚ), 0] = 2 by simp [lsqConstFit]; norm_num]
    have h : (c - 2) ^ 2 ≥ 0 := sq_nonneg _
    simp only [rss, List.map_cons, List.map_nil, List.sum_cons, List.sum_nil]
    nlinarith
  · intro c
    rw [hv]
    rw [show lsqConstFit [(4 : ℚ)] = 4 by simp [lsqConstFit]]
    have h : (c - 4) ^ 2 ≥ 0 := sq_nonneg _
    simp only [rss, List.map_cons, List.map_nil, List.sum_cons, List.sum_nil]
    nlinarith
  · rw [hfz, hfv]; norm_num

/-- Claim C2 counterexample: the claim says the lower bound is inclusive
(`v_min ≤ v`), but at longitude `ell = 0` the band is
`(v_of_l 0 - 13, v_of_l 0 + 13) = (43, 69)` m/s, and a channel at exactly
`v = 43` m/s — which lies in `[v_min, v_max)` — is excluded by the notebook's
mask. -/
theorem far3kpcarm_lower_bound_counterexample :
    v_of_l 0 - 13 ≤ (43 : ℚ) ∧ (43 : ℚ) < v_of_l 0 + 13 ∧
    far3kpcarm_channel 43 0 = false := by
  refine ⟨by norm_num [v_of_l], by norm_num [v_of_l], ?_⟩
  simp only [far3kpcarm_channel, v_of_l]
  norm_num

/-- Claim C2 amended: a spectral channel with world velocity `v` is included
in the notebook's velocity-range mask at longitude `ell` iff
`v_min < v < v_max` with `v_min = v_of_l ell - 13`, `v_max = v_of_l ell + 13`
— both bounds strict (exclusive), not lower-inclusive as claimed. -/
theorem far3kpcarm_channel_iff_open_interval (v ell : ℚ) :
    far3kpcarm_channel v ell = true ↔
      (v_of_l ell - 13 < v ∧ v < v_of_l ell + 13) := by
  simp [far3kpcarm_channel]

/-- Claim C6: on a cache miss the download cell first attempts the primary
`download_file` retrieval with the bounded timeout 10; when that primary
attempt succeeds no fallback happens; when it fails, exactly one FTP
fallback retrieval of the very same resource (same host, directory and file
as the primary URL) is performed, and the operation ends in IOError exactly
when that single fallback also fails. -/
theorem download_fallback_behaviour (env : RemoteEnv)
    (hmiss : env.localExists = false) :
    ((env.primaryFetch 10).isSome →
        (acquireMapsCube env).2 = [.primaryDL mapsURL 10]) ∧
    (env.primaryFetch 10 = none →
        (acquireMapsCube env).2 =
          [.primaryDL mapsURL 10, .ftpRetr mapsHost mapsDir mapsFits] ∧
        mapsURL = "ftp://" ++ mapsHost ++ "/" ++ mapsDir ++ "/" ++ mapsFits ∧
        ((acquireMapsCube env).1 = .ioError ↔ env.ftpFetch = none)) := by
  constructor
  · intro hsome
    obtain ⟨f, hf⟩ := Option.isSome_iff_exists.mp hsome
    simp [acquireMapsCube, hmiss, hf]
  · intro hnone
    refine ⟨?_, rfl, ?_⟩
    · cases hftp : env.ftpFetch <;> simp [acquireMapsCube, hmiss, hnone, hftp]
    · cases hftp : env.ftpFetch <;> simp [acquireMapsCube, hmiss, hnone, hftp]

/-- Claim C6 witness: in the concrete cache-miss environment where both
retrievals fail, the trace is exactly one primary attempt at timeout 10
followed by exactly one FTP fallback of the same file, and the result is
IOError. -/
theorem download_fallback_behaviour_witness :
    (acquireMapsCube failEnv).2 =
      [.primaryDL mapsURL 10, .ftpRetr mapsHost mapsDir mapsFits] ∧
    ((acquireMapsCube failEnv).1 = .ioError ↔ failEnv.ftpFetch = none) :=
  ⟨((download_fallback_behaviour failEnv rfl).2 rfl).1,
   ((download_fallback_behaviour failEnv rfl).2 rfl).2.2⟩

/-- Claim C3: with positive spacing and a nonnegative arc length, the sample
offsets start exactly at the first waypoint (offset 0), are uniformly spaced
(the k-th offset is `k · spacing`), and never pass the last waypoint
(every offset is at most `L`); and the spec's concrete test — the polyline
`[(0,0),(10,0)]`, whose arc length is 10, sampled at spacing 5 — yields
exactly the three offsets `[0, 5, 10]`. -/
theorem pathsampler_uniform_spacing (L spacing : ℚ)
    (hs : 0 < spacing) (hL : 0 ≤ L) :
    (sampleOffsets L spacing).head? = some 0 ∧
    (∀ k : ℕ, ∀ h : k < (sampleOffsets L spacing).length,
        (sampleOffsets L spacing).get ⟨k, h⟩ = k * spacing) ∧
    (∀ o ∈ sampleOffsets L spacing, o ≤ L) ∧
    sampleOffsets 10 5 = [0, 5, 10] := by
  refine ⟨?_, ?_, ?_, ?_⟩
  · simp [sampleOffsets, List.range_succ_eq_map]
  · intro k h
    simp only [sampleOffsets, List.get_eq_getElem, List.getElem_map,
      List.getElem_range]
  · intro o ho
    rw [sampleOffsets] at ho
    obtain ⟨k, hk, rfl⟩ := List.mem_map.mp ho
    rw [List.mem_range] at hk
    have hdiv : (0 : ℚ) ≤ L / spacing := div_nonneg hL hs.le
    have hfl0 : (0 : ℤ) ≤ ⌊L / spacing⌋ := Int.le_floor.mpr (by exact_mod_cast hdiv)
    have hk2 : k ≤ ⌊L / spacing⌋.toNat := Nat.lt_succ_iff.mp hk
    have hk' : (k : ℤ) ≤ ⌊L / spacing⌋ := by omega
    have hkq : (k : ℚ) ≤ L / spacing := by
      calc (k : ℚ) ≤ (⌊L / spacing⌋ : ℚ) := by exact_mod_cast hk'
        _ ≤ L / spacing := Int.floor_le _
    calc (k : ℚ) * spacing ≤ (L / spacing) * spacing :=
          mul_le_mul_of_nonneg_right hkq hs.le
      _ = L := div_mul_cancel₀ L hs.ne'
  · have h2 : ⌊(10 : ℚ) / 5⌋ = 2 := by norm_num
    have h3 : ⌊(10 : ℚ) / 5⌋.toNat + 1 = 3 := by rw [h2]; rfl
    rw [sampleOffsets, h3, show List.range 3 = [0, 1, 2] from rfl]
    simp only [List.map_cons, List.map_nil]
    norm_num

/-- Claim C3 witness: the theorem's hypotheses hold at the concrete spacing 5
and arc length 10 (the polyline `[(0,0),(10,0)]`), producing exactly the
samples at offsets 0, 5 and 10. -/
theorem pathsampler_uniform_spacing_witness :
    (0 : ℚ) < 5 ∧ (0 : ℚ) ≤ 10 ∧ sampleOffsets 10 5 = [0, 5, 10] :=
  ⟨by decide, by decide,
   (pathsampler_uniform_spacing 10 5 (by decide) (by decide)).2.2.2⟩

/-- The NaN-aware single-pass accumulator computes exactly the sum and the
count of the valid values. -/
theorem nansumCount_eq (xs : List (Option ℚ)) :
    nansumCount xs = ((validObs xs).sum, (validObs xs).length) := by
  induction xs with
  | nil => rfl
  | cons x xs ih =>
    cases x <;> simp [nansumCount, validObs, List.filterMap_cons, ih, add_comm]

/-- Claim C4: a PV-diagram cell is the unweighted arithmetic mean of the
cube intensities over only the valid (unmasked, non-NaN) footprint pixels at
that channel: when at least one footprint pixel is valid the cell is that
finite mean, and the cell is NaN (`none`) exactly when every contributing
pixel is excluded; concretely, the footprint `[(0,0),(0,1),(1,0)]` of
`pvTestCube` — one NaN pixel and two valid pixels 2 and 4 — yields the mean
3 of the valid pixels only, not NaN. -/
theorem pvcell_mean_of_valid (cube : ℕ → ℕ → ℕ → Option ℚ)
    (fp : List (ℕ × ℕ)) (ch : ℕ) :
    (validObs (fp.map fun p => cube ch p.1 p.2) ≠ [] →
      pvCell cube fp ch =
        some ((validObs (fp.map fun p => cube ch p.1 p.2)).sum /
              (validObs (fp.map fun p => cube ch p.1 p.2)).length)) ∧
    (pvCell cube fp ch = none ↔
      validObs (fp.map fun p => cube ch p.1 p.2) = []) ∧
    pvCell pvTestCube pvTestFootprint 0 = some 3 := by
  refine ⟨?_, ?_, ?_⟩
  · intro hne
    simp only [pvCell, nanmean, nansumCount_eq]
    rw [if_neg (by simpa [List.length_eq_zero] using hne)]
  · by_cases h : validObs (fp.map fun p => cube ch p.1 p.2) = []
    · simp [pvCell, nanmean, nansumCount_eq, h]
    · simp [pvCell, nanmean, nansumCount_eq, h, List.length_eq_zero]
  · have hmap : pvTestFootprint.map (fun p => pvTestCube 0 p.1 p.2) =
        [some 2, some 4, none] := by
      simp [pvTestFootprint, pvTestCube]
    rw [pvCell, hmap]
    simp only [nanmean, nansumCount]
    norm_num

/-- Claim C4 witness: the footprint of `pvTestCube` has a valid pixel, and
applying the theorem there gives the cell as the mean of the valid pixels. -/
theorem pvcell_mean_of_valid_witness :
    validObs (pvTestFootprint.map fun p => pvTestCube 0 p.1 p.2) ≠ [] ∧
    pvCell pvTestCube pvTestFootprint 0 =
      some ((validObs (pvTestFootprint.map fun p => pvTestCube 0 p.1 p.2)).sum /
            (validObs (pvTestFootprint.map fun p => pvTestCube 0 p.1 p.2)).length) := by
  have hne : validObs (pvTestFootprint.map fun p => pvTestCube 0 p.1 p.2) ≠ [] := by
    simp [validObs, pvTestFootprint, pvTestCube]
  exact ⟨hne, (pvcell_mean_of_valid pvTestCube pvTestFootprint 0).1 hne⟩

/-- Claim C5: moment 0 computes per spatial pixel the NaN-excluded sum of
the channels selected by `vmin ≤ v < vmax`, multiplied by the channel width,
with the pixel NaN (`none`) when all its channels are excluded; the output
map has the cube's spatial shape, and when the velocity range selects zero
channels every cell of it is NaN. -/
theorem moment0_sum_and_zero_selection (c : MCube) (vmin vmax : ℚ) :
    (∀ y x, moment0Pixel c vmin vmax y x =
        if validObs ((selectedChannels c vmin vmax).map fun i => c.val i y x) = []
        then none
        else some ((validObs ((selectedChannels c vmin vmax).map
            fun i => c.val i y x)).sum * c.dv)) ∧
    (moment0Map c vmin vmax).length = c.ny ∧
    (∀ row ∈ moment0Map c vmin vmax, row.length = c.nx) ∧
    (selectedChannels c vmin vmax = [] →
      ∀ row ∈ moment0Map c vmin vmax, ∀ cell ∈ row, cell = none) := by
  refine ⟨?_, ?_, ?_, ?_⟩
  · intro y x
    by_cases h : validObs ((selectedChannels c vmin vmax).map fun i => c.val i y x) = []
    · simp [moment0Pixel, nansumCount_eq, h]
    · simp [moment0Pixel, nansumCount_eq, h, List.length_eq_zero]
  · simp [moment0Map]
  · intro row hrow
    simp only [moment0Map, List.mem_map] at hrow
    obtain ⟨y, _, rfl⟩ := hrow
    simp
  · intro hsel row hrow cell hcell
    simp only [moment0Map, List.mem_map] at hrow
    obtain ⟨y, _, rfl⟩ := hrow
    simp only [List.mem_map] at hcell
    obtain ⟨x, _, rfl⟩ := hcell
    simp [moment0Pixel, hsel, nansumCount]

/-- Claim C5 witness: on the concrete cube whose two channels both sit at
velocity 0, the range `[5, 6)` selects zero channels, and applying the
theorem there makes every cell of the moment-0 map NaN. -/
theorem moment0_zero_selection_witness :
    selectedChannels m0TestCube 5 6 = [] ∧
    ∀ row ∈ moment0Map m0TestCube 5 6, ∀ cell ∈ row, cell = none := by
  have hsel : selectedChannels m0TestCube 5 6 = [] := by decide
  exact ⟨hsel, (moment0_sum_and_zero_selection m0TestCube 5 6).2.2.2 hsel⟩

/-- Claim C7: applying the mask derived from a region twice yields a cube
identical to applying it once — same data, same mask, same channel count and
same spatial coordinate extents. -/
theorem applyRegion_idempotent (c : LCube) (r : PixRegion) :
    applyRegion (applyRegion c r) r = applyRegion c r := by
  cases c with
  | mk nchan xext yext data mask =>
    simp only [applyRegion, LCube.mk.injEq]
    refine ⟨trivial, ?_, ?_, trivial, ?_⟩
    · simp [PixInterval.inter, max_assoc, min_assoc]
    · simp [PixInterval.inter, max_assoc, min_assoc]
    · funext k y x
      cases h : r.contains y x <;> simp [h]

/-- Claim C8: a pixel belongs to the ellipse mask iff
`((Δx·cosθ + Δy·sinθ)/a)² + ((−Δx·sinθ + Δy·cosθ)/b)² ≤ 1`; and for the
ellipse centered at (100,100) with semi-axes (50,30) and angle 0
(cos θ = 1, sin θ = 0), the pixels (100,100) and (149,100) are included and
the pixel (151,100) is excluded. -/
theorem ellipse_membership :
    (∀ cx cy a b cθ sθ x y : ℚ,
        ellipseContains cx cy a b cθ sθ x y = true ↔
          (((x - cx) * cθ + (y - cy) * sθ) / a) ^ 2 +
            ((-(x - cx) * sθ + (y - cy) * cθ) / b) ^ 2 ≤ 1) ∧
    ellipseContains 100 100 50 30 1 0 100 100 = true ∧
    ellipseContains 100 100 50 30 1 0 149 100 = true ∧
    ellipseContains 100 100 50 30 1 0 151 100 = false := by
  refine ⟨fun cx cy a b cθ sθ x y => by simp [ellipseContains], ?_, ?_, ?_⟩
  · simp only [ellipseContains, decide_eq_true_eq]
    norm_num
  · simp only [ellipseContains, decide_eq_true_eq]
    norm_num
  · simp only [ellipseContains, decide_eq_false_iff_not]
    norm_num

/-- Claim C9: whenever attaching (and conjoining) a mask succeeds, the
resulting cube's attached boolean mask has exactly the data array's shape on
every axis, and the data shape is unchanged — so the mask-shape invariant is
preserved by every mask attachment, including broadcastable inputs like
DameCube's `(nchan, 1, nx)` mask. -/
theorem with_mask_preserves_shape (c : SCube) (m : Arr3 Bool) (c' : SCube)
    (hattach : with_mask c m = some c') :
    c'.mask.shape = c'.data.shape ∧ c'.data.shape = c.data.shape := by
  unfold with_mask at hattach
  split at hattach
  · cases hattach
    simp [Arr3.shape]
  · cases hattach

/-- Claim C9 witness: attaching the broadcastable (2,1,3) mask to the 2×2×3
cube succeeds, and by the theorem the attached mask has the data's shape. -/
theorem with_mask_preserves_shape_witness :
    with_mask wmCube wmNewMask = some wmResult ∧
    wmResult.mask.shape = wmResult.data.shape ∧
    wmResult.data.shape = wmCube.data.shape :=
  ⟨rfl, (with_mask_preserves_shape wmCube wmNewMask wmResult rfl).1,
   (with_mask_preserves_shape wmCube wmNewMask wmResult rfl).2⟩

/-- Claim C10: invoking PV extraction without an explicit spacing argument
uses the default spacing of 1 pixel — the result equals
`extract_pv_slice cube nchan path 1` — and the output has one offset column
per whole pixel of path arc length: `⌊length⌋ + 1` columns, at offsets
0, 1, …, ⌊length⌋. -/
theorem extract_default_spacing (cube : ℕ → ℕ → ℕ → Option ℚ) (nchan : ℕ)
    (p : PVPath) :
    extract_pv_slice_default cube nchan p = extract_pv_slice cube nchan p 1 ∧
    (extract_pv_slice_default cube nchan p).length = ⌊p.length⌋.toNat + 1 := by
  refine ⟨rfl, ?_⟩
  simp [extract_pv_slice_default, extract_pv_slice, sampleOffsets]
